import Mathlib

set_option maxHeartbeats 1000000

/-
Verification of the mediastorage-proxy HTTP gateway core.

The definitions below are a shallow embedding of the C++ sources:
  - src/delete.cpp              (proxy::req_delete::on_request / on_finished)
  - src/lookup_result.cpp       (lookup_result accessors)
  - the main proxy translation unit (get_filename, get_file_info,
    generate_namespaces, req_upload / req_get / req_download_info /
    req_cache handlers, and a second copy of req_delete::on_request)

External collaborators (the elliptics storage client, the mastermind
balancer, libc DNS/strftime, boost::lexical_cast) are passed in as
parameters, following the interface the code calls.
-/

namespace Mproxy

/-- Wraparound base of C++ size_t arithmetic: 2^64. -/
def USIZE : Nat := 18446744073709551616

/-- std::string::npos, the value size_t(-1). -/
def NPOS : Nat := USIZE - 1

/-- std::string::find(c, start): index of the first occurrence of c at or
after position start, NPOS when there is none (or start is past the end). -/
def strFind (s : List Char) (c : Char) (start : Nat) : Nat :=
  if start > s.length then NPOS
  else
    match (s.drop start).findIdx? (fun x => x == c) with
    | some i => start + i
    | none => NPOS

/-- std::string::substr(pos, count): the count is clamped to the remaining
length, exactly as in C++ (the callers in this code always pass pos within
bounds, so the out-of-range exception case never arises). -/
def csubstr (s : List Char) (pos count : Nat) : List Char :=
  (s.drop pos).take (min count (s.length - pos))

/-- C++ get_filename (main translation unit, lines 192-211): splits the URL
string into (filename, namespace-name).  begin is find('/',1)+1, end is
find('?',begin); the namespace is the text between the first '-' (plus one)
and the character before begin, or the literal "default" when the URL holds
no '-'.  The size_t wraparound of begin-1 (and of npos+1) is modelled with
mod-2^64 arithmetic. -/
def get_filename (url : String) : String × String :=
  let s := url.data
  let bg := (strFind s '/' 1 + 1) % USIZE
  let en := strFind s '?' bg
  let filename := csubstr s bg (en - bg)
  let namespaceEnd := (bg + NPOS) % USIZE
  let namespaceBeg := strFind s '-' 0
  let strNamespace :=
    if namespaceBeg = NPOS then "default"
    else
      let nb := (namespaceBeg + 1) % USIZE
      if nb < namespaceEnd then String.mk (csubstr s nb (namespaceEnd - nb)) else ""
  (String.mk filename, strNamespace)

/-- The success-copies-num policy checker stored in a namespace
(ioremap::elliptics::checkers::all / quorum / at_least_one). -/
inductive ResultChecker where
  | all
  | quorum
  | atLeastOne
  deriving DecidableEq, Repr

/-- elliptics::namespace_t as used by the sources: name, groups-count,
result checker and auth key.  A default-constructed value has an empty
name (only the name field of the default value is ever observed). -/
structure NamespaceT where
  name : String
  groupsCount : Int
  resultChecker : ResultChecker
  authKey : String
  deriving DecidableEq, Repr

/-- C++ proxy::get_file_info (main translation unit, lines 846-850):
get_filename, then m_namespaces.find on the parsed namespace name; on a
miss a default-constructed namespace_t (empty name) is paired with the
filename. -/
def get_file_info (registry : List (String × NamespaceT)) (url : String) :
    String × NamespaceT :=
  let p := get_filename url
  match registry.find? (fun kv => kv.1 == p.2) with
  | some kv => (p.1, kv.2)
  | none => (p.1, ⟨"", 0, ResultChecker.all, ""⟩)

/-- Observable actions of req_delete::on_request: send_reply calls (with the
optional WWW-Authenticate header value) and the dispatch of session.remove. -/
inductive DeleteEvent where
  | reply (code : Nat) (wwwAuthenticate : Option String)
  | remove (key : String) (groups : List Int)
  deriving DecidableEq, Repr

/-- External dependencies of req_delete::on_request: check_basic_auth, the
Authorization header, boost::lexical_cast of the group token, the server's
get_groups, and the live-state count against the die limit. -/
structure DeleteEnv where
  checkAuth : String → String → Option String → Bool
  authorizationHeader : Option String
  parseGroup : String → Option Int
  getGroups : Int → String → Option (List Int)
  stateNum : Nat
  dieLimit : Nat

/-- C++ proxy::req_delete::on_request exactly as written in src/delete.cpp
lines 4-73.  Note: the 401 branch there calls send_reply and does NOT
return, so execution falls through into the group parsing and the remove
dispatch; the returned list is the ordered trace of send_reply and
session.remove calls.  A lexical_cast or get_groups exception maps to the
400 branch; a state_num below die_limit throws and is caught as 500. -/
def req_delete_on_request (registry : List (String × NamespaceT)) (env : DeleteEnv)
    (url : String) : List DeleteEvent :=
  let fileInfo := get_file_info registry url
  if fileInfo.2.name = "" then [DeleteEvent.reply 400 none]
  else
    let authEvents : List DeleteEvent :=
      if env.checkAuth fileInfo.2.name fileInfo.2.authKey env.authorizationHeader then []
      else [DeleteEvent.reply 401 (some ("Basic realm=\"" ++ fileInfo.2.name ++ "\""))]
    let groupKey := fileInfo.1
    let pos := strFind groupKey.data '/' 0
    if pos = NPOS then authEvents ++ [DeleteEvent.reply 400 none]
    else
      let filename := String.mk (csubstr groupKey.data (pos + 1) NPOS)
      let group := String.mk (csubstr groupKey.data 0 pos)
      match env.parseGroup group with
      | none => authEvents ++ [DeleteEvent.reply 400 none]
      | some g =>
        match env.getGroups g filename with
        | none => authEvents ++ [DeleteEvent.reply 400 none]
        | some groups =>
          let key := fileInfo.2.name ++ "." ++ filename
          if groups.isEmpty then authEvents ++ [DeleteEvent.reply 404 none]
          else if env.stateNum < env.dieLimit then authEvents ++ [DeleteEvent.reply 500 none]
          else authEvents ++ [DeleteEvent.remove key groups]

/-- The second copy of req_delete::on_request shipped with the repository
(main translation unit, lines 913-960), which DOES return right after the
401 reply, before any remove is dispatched.  Group resolution there goes
through get_namespace / prepare_session; for the auth claim only the part
up to the return matters, the rest is kept structurally parallel. -/
def req_delete_on_request_v2 (registry : List (String × NamespaceT)) (env : DeleteEnv)
    (url : String) : List DeleteEvent :=
  let fileInfo := get_file_info registry url
  if fileInfo.2.name = "" then [DeleteEvent.reply 400 none]
  else if env.checkAuth fileInfo.2.name fileInfo.2.authKey env.authorizationHeader then
    let groupKey := fileInfo.1
    let pos := strFind groupKey.data '/' 0
    if pos = NPOS then [DeleteEvent.reply 400 none]
    else
      let filename := String.mk (csubstr groupKey.data (pos + 1) NPOS)
      let group := String.mk (csubstr groupKey.data 0 pos)
      match env.parseGroup group with
      | none => [DeleteEvent.reply 400 none]
      | some g =>
        match env.getGroups g filename with
        | none => [DeleteEvent.reply 400 none]
        | some groups =>
          let key := fileInfo.2.name ++ "." ++ filename
          if groups.isEmpty then [DeleteEvent.reply 404 none]
          else if env.stateNum < env.dieLimit then [DeleteEvent.reply 500 none]
          else [DeleteEvent.remove key groups]
  else
    [DeleteEvent.reply 401 (some ("Basic realm=\"" ++ fileInfo.2.name ++ "\""))]

/-- Outcome of the namespace-resolution part of req_upload::on_request. -/
inductive UploadDispatch where
  | reply (code : Nat)
  | proceed (key : String) (ns : NamespaceT)
  deriving DecidableEq, Repr

/-- The namespace gate of C++ proxy::req_upload::on_request (main
translation unit, lines 305-315): get_file_info, send_reply(400) when the
resolved namespace name is empty, otherwise the key and namespace are
captured and dispatch proceeds (group selection, die-limit check, container
packing and the write itself follow and are outside this claim's scope). -/
def req_upload_namespace_dispatch (registry : List (String × NamespaceT))
    (url : String) : UploadDispatch :=
  let fileInfo := get_file_info registry url
  if fileInfo.2.name = "" then UploadDispatch.reply 400
  else UploadDispatch.proceed fileInfo.1 fileInfo.2

/-- The errno value ENOENT (no such entry); the storage "not found" error
carries code -ENOENT. -/
def ENOENT : Int := 2

/-- C++ proxy::req_delete::on_finished (src/delete.cpp lines 75-84, and the
identical copy in the main translation unit): the error_info is modelled as
an optional error code; the reply is (status code, body). -/
def req_delete_on_finished (err : Option Int) : Nat × Option String :=
  match err with
  | some c => (if c = -ENOENT then 404 else 500, none)
  | none => (200, none)

/-- One entry of the sync_write_result delivered by the storage client to
req_upload::on_finished, as consumed through parse_lookup: the group id
and status from the result header, and the addr / full_path strings the
lookup_result accessors decode from the entry's bytes. -/
structure WriteResultEntry where
  group : Int
  status : Int
  addr : String
  fullPath : String
  deriving DecidableEq, Repr

/-- std::sort of a vector of group ids (any comparison sort: the sorted
permutation of a list is unique, so insertion sort is an exact model). -/
def sortGroups (l : List Int) : List Int :=
  List.insertionSort (· ≤ ·) l

/-- std::set_difference on two sorted ranges, exactly the standard
algorithm: emit elements of the first range not matched in the second. -/
def set_difference : List Int → List Int → List Int
  | [], _ => []
  | x :: xs, [] => x :: xs
  | x :: xs, y :: ys =>
    if x < y then x :: set_difference xs (y :: ys)
    else if y < x then set_difference (x :: xs) ys
    else set_difference xs ys
termination_by xs ys => xs.length + ys.length

/-- The bad-groups computation of req_upload::on_finished (main translation
unit, lines 381-403): sort all_groups and good_groups, then
std::set_difference into bad_groups. -/
def upload_bad_groups (allGroups goodGroups : List Int) : List Int :=
  set_difference (sortGroups allGroups) (sortGroups goodGroups)

/-- Renders one complete element of the upload XML body (main translation
unit, lines 441-443). -/
def completeElem (e : WriteResultEntry) : String :=
  "<complete addr=\"" ++ e.addr ++ "\" path=\"" ++ e.fullPath ++ "\" group=\""
    ++ toString e.group ++ "\" status=\"" ++ toString e.status ++ "\"/>\n"

/-- The per-result loop of the upload XML rendering (main translation unit,
lines 436-444): threads the written counter and the ostringstream through
the entries in order. -/
def uploadLoop : List WriteResultEntry → Nat → String → Nat × String
  | [], written, oss => (written, oss)
  | e :: rest, written, oss =>
    uploadLoop rest (if e.status = 0 then written + 1 else written) (oss ++ completeElem e)

/-- toString of the element *std::min_element(groups.begin(), groups.end())
used in the upload key attribute; dereferencing the end iterator of an
empty vector is undefined behaviour in C++ and modelled as the empty
string. -/
def minGroupString (l : List Int) : String :=
  match l.min? with
  | some m => toString m
  | none => ""

/-- The fixed opening of the upload XML body (main translation unit, lines
420-434), up to and including the post element's closing bracket. -/
def uploadXmlHead (keyRemote idStr : String) (resultCount contentSize : Nat)
    (allGroups : List Int) : String :=
  "<?xml version=\"1.0\" encoding=\"utf-8\"?>\n" ++ "<post obj=\"" ++ keyRemote
    ++ "\" id=\"" ++ idStr ++ "\" groups=\"" ++ toString resultCount
    ++ "\" size=\"" ++ toString contentSize ++ "\" key=\"/"
    ++ minGroupString allGroups ++ "/" ++ keyRemote ++ "\">\n"

/-- The observable outcome of req_upload::on_finished: the reply code and
body, and the bad-groups list written to the error log when the policy
checker reported failure. -/
structure UploadFinishOutcome where
  code : Nat
  body : Option String
  badGroupsLogged : Option (List Int)
  deriving DecidableEq, Repr

/-- C++ proxy::req_upload::on_finished (main translation unit, lines
371-480).  good_groups is collected from the delivered result entries; when
the policy-level error is set the bad groups are computed and logged and
the reply is a bare 500, otherwise the XML document is rendered with one
complete element per delivered result entry and the written counter. -/
def req_upload_on_finished (allGroups : List Int) (results : List WriteResultEntry)
    (hasError : Bool) (keyRemote idStr : String) (contentSize : Nat) :
    UploadFinishOutcome :=
  let goodGroups := results.map WriteResultEntry.group
  if hasError then
    ⟨500, none, some (upload_bad_groups allGroups goodGroups)⟩
  else
    let start := uploadXmlHead keyRemote idStr results.length contentSize allGroups
    let loopOut := uploadLoop results 0 start
    let body := loopOut.2 ++ "<written>" ++ toString loopOut.1 ++ "</written>\n" ++ "</post>"
    ⟨200, some body, none⟩

/-- The user-flags bit marking that the stored bytes embed metadata
(tag_user_flags UF_EMBEDS in the main translation unit). -/
def UF_EMBEDS : Nat := 1

/-- elliptics::data_container_t as observed by req_get::on_finished: the
payload (dc.data rendered to a string) and the optional embedded timestamp
seconds returned by dc.get of the timestamp tag. -/
structure DataContainer where
  data : String
  timestamp : Option Int
  deriving DecidableEq, Repr

/-- The reply assembled by req_get::on_finished: status code, optional body
and the optional Last-Modified header value. -/
structure GetResponse where
  code : Nat
  body : Option String
  lastModified : Option String
  deriving DecidableEq, Repr

/-- C++ proxy::req_get::on_finished (main translation unit, lines 511-560).
unpack (data_container_t::unpack, whose translation unit is not part of the
repository snapshot) and the strftime HTTP-date rendering are external and
passed as parameters.  The embeded flag starts from the embed or
embed_timestamp query items and is forced to true when the result's
user_flags carry UF_EMBEDS; on a 304 no body and no Last-Modified header
are set. -/
def req_get_on_finished (unpack : String → Bool → DataContainer) (fmt : Int → String)
    (err : Option Int) (file : String) (userFlags : Nat)
    (hasEmbedArg hasEmbedTimestampArg : Bool) (ifModifiedSince : Option String) :
    GetResponse :=
  match err with
  | some c => ⟨if c = -ENOENT then 404 else 500, none, none⟩
  | none =>
    let embeded0 := hasEmbedArg || hasEmbedTimestampArg
    let embeded := if (userFlags &&& UF_EMBEDS) ≠ 0 then true else embeded0
    let dc := unpack file embeded
    match dc.timestamp with
    | some sec =>
      let tsStr := fmt sec
      match ifModifiedSince with
      | some ims =>
        if ims = tsStr then ⟨304, none, none⟩
        else ⟨200, some dc.data, some tsStr⟩
      | none => ⟨200, some dc.data, some tsStr⟩
    | none => ⟨200, some dc.data, none⟩

/-- One entry of the sync_lookup_result seen by req_download_info::on_finished:
the per-entry error flag it->error(), and the host and path strings the
lookup_result accessors render for it. -/
structure DlLookupEntry where
  hasError : Bool
  host : String
  path : String
  deriving DecidableEq, Repr

/-- The download-info XML body (main translation unit, lines 640-658); the
region field is the local constant string "-1". -/
def downloadInfoXml (host path : String) : String :=
  let region := "-1"
  "<?xml version=\"1.0\" encoding=\"utf-8\"?>" ++ "<download-info>" ++ "<host>"
    ++ host ++ "</host>" ++ "<path>" ++ path ++ "</path>" ++ "<region>"
    ++ region ++ "</region>" ++ "</download-info>"

/-- C++ proxy::req_download_info::on_finished (main translation unit, lines
629-681): on an aggregate error 404 or 500; otherwise the first entry in
result order without a per-entry error is rendered, and 503 when every
entry carries an error. -/
def req_download_info_on_finished (err : Option Int) (entries : List DlLookupEntry) :
    Nat × Option String :=
  match err with
  | some c => (if c = -ENOENT then 404 else 500, none)
  | none =>
    match entries.find? (fun e => !e.hasError) with
    | some e => (200, some (downloadInfoXml e.host e.path))
    | none => (503, none)

/-- C++ proxy::req_cache::on_request (main translation unit, lines 701-747):
builds the JSON body field by field through the four has_item checks in
their fixed textual order, with a comma-newline before every field after
the first; the four pre-rendered JSON fragments come from the mastermind
balancer and are passed in.  The query is the list of query item names;
has_item only tests membership. -/
def req_cache_on_request (query : List String)
    (jsonGroupWeights jsonSymmetricGroups jsonBadGroups jsonCacheGroups : String) :
    Nat × Option String :=
  let g := false
  let oss := "\x7b" ++ "\n"
  let step1 :=
    if query.contains "group-weights" then
      (true, oss ++ "\"group-weights\" : " ++ jsonGroupWeights)
    else (g, oss)
  let step2 :=
    if query.contains "symmetric-groups" then
      (true, (if step1.1 then step1.2 ++ ",\n" else step1.2)
        ++ "\"symmetric-groups\" : " ++ jsonSymmetricGroups)
    else step1
  let step3 :=
    if query.contains "bad-groups" then
      (true, (if step2.1 then step2.2 ++ ",\n" else step2.2)
        ++ "\"bad-groups\" : " ++ jsonBadGroups)
    else step2
  let step4 :=
    if query.contains "cache-groups" then
      (true, (if step3.1 then step3.2 ++ ",\n" else step3.2)
        ++ "\"cache-groups\" : " ++ jsonCacheGroups)
    else step3
  let oss := (if step4.1 then step4.2 ++ "\n" else step4.2) ++ "\x7d" ++ "\n"
  (200, some oss)

/-- One member of the namespaces dict in the configuration, as read by
generate_namespaces: the member name and the optional groups-count and
success-copies-num fields. -/
structure NsConfigEntry where
  name : String
  groupsCount : Option Int
  successCopiesNum : Option String
  deriving DecidableEq, Repr

/-- std::map insert: keeps the existing mapping when the key is already
present. -/
def mapInsert (m : List (String × NamespaceT)) (k : String) (v : NamespaceT) :
    List (String × NamespaceT) :=
  if m.any (fun kv => kv.1 == k) then m else m ++ [(k, v)]

/-- The member loop of C++ generate_namespaces (main translation unit, lines
154-187): missing groups-count, missing success-copies-num or an unknown
success-copies-num string throws (modelled as Except.error); otherwise the
namespace is inserted.  generate_namespaces never touches auth_key, which
stays default-constructed (empty). -/
def generate_namespaces_loop :
    List NsConfigEntry → List (String × NamespaceT) →
    Except String (List (String × NamespaceT))
  | [], acc => Except.ok acc
  | e :: rest, acc =>
    match e.groupsCount with
    | none => Except.error ("Missing 'groups-count' in '" ++ e.name ++ "' namespace")
    | some gc =>
      match e.successCopiesNum with
      | none =>
        Except.error ("Missing 'success-copies-num' in '" ++ e.name ++ "' namespace")
      | some scn =>
        if scn = "all" then
          generate_namespaces_loop rest (mapInsert acc e.name ⟨e.name, gc, ResultChecker.all, ""⟩)
        else if scn = "quorum" then
          generate_namespaces_loop rest (mapInsert acc e.name ⟨e.name, gc, ResultChecker.quorum, ""⟩)
        else if scn = "any" then
          generate_namespaces_loop rest (mapInsert acc e.name ⟨e.name, gc, ResultChecker.atLeastOne, ""⟩)
        else
          Except.error ("Unknown type of success-copies-num '" ++ scn ++ "' in '"
            ++ e.name ++ "' namespace. Allowed types: any, quorum, all.")

/-- C++ generate_namespaces (main translation unit, lines 145-190): throws
when the configuration has no namespaces member, otherwise folds the member
loop over the dict entries starting from the empty map. -/
def generate_namespaces (config : Option (List NsConfigEntry)) :
    Except String (List (String × NamespaceT)) :=
  match config with
  | none => Except.error "You should set a dict of namespaces"
  | some entries => generate_namespaces_loop entries []

/-- C++ lookup_result::host (src/lookup_result.cpp lines 35-56): getnameinfo
(the libc reverse resolution, passed as a parameter) either fails, which
throws, or yields the hostname; the signing port is appended after a colon
exactly when the configured signing-port string is non-empty.  The numeric
address is never used. -/
def lookup_result_host {α : Type} (getnameinfo : α → Option String)
    (storageAddress : α) (signPort : String) : Except String String :=
  match getnameinfo storageAddress with
  | none => Except.error "can not make dns lookup"
  | some hbuf =>
    Except.ok (if signPort = "" then hbuf else hbuf ++ ":" ++ signPort)

/-- Concatenation of a list of strings in order (used to state the shape of
bodies rendered by per-entry loops). -/
def strConcat : List String → String
  | [] => ""
  | s :: rest => s ++ strConcat rest

/-- Joins strings with the comma-newline separator the cache handler writes
between JSON fields. -/
def sepJoin : List String → String
  | [] => ""
  | [s] => s
  | s :: rest => s ++ ",\n" ++ sepJoin rest

/-- The cache JSON fields selected by the query flags, in the fixed textual
order group-weights, symmetric-groups, bad-groups, cache-groups of the
handler, independent of the order the flags appear in the query. -/
def cacheFields (query : List String)
    (jsonGroupWeights jsonSymmetricGroups jsonBadGroups jsonCacheGroups : String) :
    List String :=
  (if query.contains "group-weights" then
    ["\"group-weights\" : " ++ jsonGroupWeights] else [])
  ++ (if query.contains "symmetric-groups" then
    ["\"symmetric-groups\" : " ++ jsonSymmetricGroups] else [])
  ++ (if query.contains "bad-groups" then
    ["\"bad-groups\" : " ++ jsonBadGroups] else [])
  ++ (if query.contains "cache-groups" then
    ["\"cache-groups\" : " ++ jsonCacheGroups] else [])

theorem set_difference_sublist : ∀ xs ys : List Int, (set_difference xs ys).Sublist xs
  | [], ys => by simp [set_difference]
  | x :: xs, [] => by simp [set_difference]
  | x :: xs, y :: ys => by
    simp only [set_difference]
    split
    · exact (set_difference_sublist xs (y :: ys)).cons₂ x
    · split
      · exact set_difference_sublist (x :: xs) ys
      · exact (set_difference_sublist xs ys).cons x
termination_by xs ys => xs.length + ys.length

theorem mem_set_difference : ∀ (xs ys : List Int), xs.Sorted (· < ·) → ys.Sorted (· < ·) →
    ∀ a : Int, (a ∈ set_difference xs ys ↔ a ∈ xs ∧ a ∉ ys)
  | [], ys, _, _, a => by simp [set_difference]
  | x :: xs, [], _, _, a => by simp [set_difference]
  | x :: xs, y :: ys, hx, hy, a => by
    obtain ⟨hxb, hx'⟩ := List.sorted_cons.mp hx
    obtain ⟨hyb, hy'⟩ := List.sorted_cons.mp hy
    simp only [set_difference]
    split
    next hlt =>
      rw [List.mem_cons, mem_set_difference xs (y :: ys) hx' hy a]
      constructor
      · rintro (rfl | ⟨hin, hnot⟩)
        · refine ⟨List.mem_cons_self a xs, ?_⟩
          intro hmem
          rcases List.mem_cons.mp hmem with rfl | hmem
          · exact absurd hlt (lt_irrefl a)
          · have := hyb a hmem
            omega
        · exact ⟨List.mem_cons_of_mem x hin, hnot⟩
      · rintro ⟨hin, hnot⟩
        rcases List.mem_cons.mp hin with rfl | hin
        · exact Or.inl rfl
        · exact Or.inr ⟨hin, hnot⟩
    next hnlt =>
      split
      next hgt =>
        rw [mem_set_difference (x :: xs) ys hx hy' a, List.mem_cons, List.mem_cons]
        constructor
        · rintro ⟨hin, hnot⟩
          refine ⟨hin, ?_⟩
          rintro (rfl | hmem)
          · rcases hin with rfl | hin
            · omega
            · have := hxb a hin
              omega
          · exact hnot hmem
        · rintro ⟨hin, hnot⟩
          exact ⟨hin, fun hmem => hnot (Or.inr hmem)⟩
      next hngt =>
        have hxy : x = y := by omega
        subst hxy
        rw [mem_set_difference xs ys hx' hy' a, List.mem_cons, List.mem_cons]
        constructor
        · rintro ⟨hin, hnot⟩
          refine ⟨Or.inr hin, ?_⟩
          rintro (rfl | hmem)
          · have := hxb a hin
            omega
          · exact hnot hmem
        · rintro ⟨hin, hnot⟩
          rcases hin with rfl | hin
          · exact absurd (Or.inl rfl) hnot
          · exact ⟨hin, fun hmem => hnot (Or.inr hmem)⟩
termination_by xs ys => xs.length + ys.length

theorem sortGroups_perm (l : List Int) : (sortGroups l).Perm l :=
  List.perm_insertionSort _ l

theorem sortGroups_sorted_lt (l : List Int) (h : l.Nodup) : (sortGroups l).Sorted (· < ·) :=
  (List.sorted_insertionSort _ l).lt_of_le ((sortGroups_perm l).nodup_iff.mpr h)

/-- Semantics of the sorted bad-groups computation, for unique group ids with
good_groups drawn from all_groups: exact set difference and the length law. -/
theorem upload_bad_groups_spec (allGroups goodGroups : List Int)
    (ha : allGroups.Nodup) (hg : goodGroups.Nodup)
    (hsub : ∀ g ∈ goodGroups, g ∈ allGroups) :
    (∀ g, g ∈ upload_bad_groups allGroups goodGroups ↔ g ∈ allGroups ∧ g ∉ goodGroups) ∧
    (upload_bad_groups allGroups goodGroups).length + goodGroups.length = allGroups.length := by
  have haperm := sortGroups_perm allGroups
  have hgperm := sortGroups_perm goodGroups
  have hasort := sortGroups_sorted_lt allGroups ha
  have hgsort := sortGroups_sorted_lt goodGroups hg
  have hmem : ∀ g, g ∈ upload_bad_groups allGroups goodGroups ↔
      g ∈ allGroups ∧ g ∉ goodGroups := by
    intro g
    rw [upload_bad_groups, mem_set_difference _ _ hasort hgsort g, haperm.mem_iff,
      hgperm.mem_iff]
  refine ⟨hmem, ?_⟩
  have hbnodup : (upload_bad_groups allGroups goodGroups).Nodup :=
    (set_difference_sublist _ _).nodup (haperm.nodup_iff.mpr ha)
  have hbfin : (upload_bad_groups allGroups goodGroups).toFinset
      = allGroups.toFinset \ goodGroups.toFinset := by
    ext g
    simp only [List.mem_toFinset, Finset.mem_sdiff]
    exact hmem g
  have hsubfin : goodGroups.toFinset ⊆ allGroups.toFinset := by
    intro g hgmem
    rw [List.mem_toFinset] at hgmem ⊢
    exact hsub g hgmem
  have h1 := List.toFinset_card_of_nodup hbnodup
  have h2 := List.toFinset_card_of_nodup ha
  have h3 := List.toFinset_card_of_nodup hg
  have h4 := Finset.card_sdiff hsubfin
  have h5 := Finset.card_le_card hsubfin
  rw [hbfin] at h1
  omega

theorem uploadLoop_spec : ∀ (l : List WriteResultEntry) (w : Nat) (s : String),
    uploadLoop l w s
      = (w + l.countP (fun e => e.status == 0), s ++ strConcat (l.map completeElem))
  | [], w, s => by simp [uploadLoop, strConcat]
  | e :: rest, w, s => by
    simp only [uploadLoop, uploadLoop_spec rest, List.map_cons, strConcat, List.countP_cons,
      Prod.mk.injEq]
    refine ⟨?_, by rw [String.append_assoc]⟩
    by_cases h : e.status = 0
    · simp [h]
      omega
    · simp [h]

/-- C1: the claim says a delete request failing auth on an auth-requiring
namespace is answered 401 with the Basic challenge header and short-circuits
before any storage operation.  The handler in src/delete.cpp does send the
401 with the WWW-Authenticate header, but its auth branch has no return
statement, so dispatch continues and session.remove IS issued: at this
concrete failing input (namespace bar found, auth check false, well-formed
group key, non-empty groups, enough live states) the trace holds the 401
reply followed by a dispatched remove. -/
theorem delete_auth_failure_still_dispatches_remove :
    req_delete_on_request [("bar", ⟨"bar", 3, ResultChecker.all, "secret"⟩)]
      ⟨fun _ _ _ => false, none, fun s => if s = "1" then some 1 else none,
        fun _ _ => some [1, 2], 5, 1⟩
      "/delete-bar/1/file" =
      [DeleteEvent.reply 401 (some "Basic realm=\"bar\""),
       DeleteEvent.remove "bar.file" [1, 2]] := by
  decide

/-- The second copy of the delete handler in the repository (main translation
unit, lines 913-960), which has the return statement, does short-circuit on
the same input: the 401 challenge is the only event and no remove is
dispatched, matching the claim's intent. -/
theorem delete_auth_failure_short_circuits_v2 :
    req_delete_on_request_v2 [("bar", ⟨"bar", 3, ResultChecker.all, "secret"⟩)]
      ⟨fun _ _ _ => false, none, fun s => if s = "1" then some 1 else none,
        fun _ _ => some [1, 2], 5, 1⟩
      "/delete-bar/1/file" =
      [DeleteEvent.reply 401 (some "Basic realm=\"bar\"")] := by
  decide

/-- C2: on an upload completion with the policy-level error set, the reply is
a bare 500 and the logged bad_groups list is exactly the set difference
all_groups minus good_groups (good_groups being the groups of the delivered
successful per-group results): membership is characterised exactly, the two
sets are disjoint, and their sizes sum to the size of all_groups. -/
theorem upload_policy_error_response (allGroups : List Int) (results : List WriteResultEntry)
    (keyRemote idStr : String) (contentSize : Nat)
    (ha : allGroups.Nodup) (hg : (results.map WriteResultEntry.group).Nodup)
    (hsub : ∀ g ∈ results.map WriteResultEntry.group, g ∈ allGroups) :
    (req_upload_on_finished allGroups results true keyRemote idStr contentSize
      = ⟨500, none, some (upload_bad_groups allGroups (results.map WriteResultEntry.group))⟩) ∧
    (∀ g, g ∈ upload_bad_groups allGroups (results.map WriteResultEntry.group)
      ↔ g ∈ allGroups ∧ g ∉ results.map WriteResultEntry.group) ∧
    (∀ g ∈ upload_bad_groups allGroups (results.map WriteResultEntry.group),
      g ∉ results.map WriteResultEntry.group) ∧
    ((upload_bad_groups allGroups (results.map WriteResultEntry.group)).length
      + (results.map WriteResultEntry.group).length = allGroups.length) := by
  obtain ⟨hmem, hlen⟩ := upload_bad_groups_spec allGroups _ ha hg hsub
  exact ⟨by simp [req_upload_on_finished], hmem,
    fun g hgmem => ((hmem g).mp hgmem).2, hlen⟩

theorem upload_policy_error_response_witness :
    (req_upload_on_finished [1, 2, 3] [⟨1, 0, "a", "p"⟩, ⟨3, 2, "b", "q"⟩] true "k" "i" 4
      = ⟨500, none, some (upload_bad_groups [1, 2, 3]
          ([⟨1, 0, "a", "p"⟩, ⟨3, 2, "b", "q"⟩].map WriteResultEntry.group))⟩) ∧
    ((upload_bad_groups [1, 2, 3]
        ([⟨1, 0, "a", "p"⟩, ⟨3, 2, "b", "q"⟩].map WriteResultEntry.group)).length
      + ([(⟨1, 0, "a", "p"⟩ : WriteResultEntry), ⟨3, 2, "b", "q"⟩].map
          WriteResultEntry.group).length
      = ([1, 2, 3] : List Int).length) :=
  ⟨(upload_policy_error_response [1, 2, 3] [⟨1, 0, "a", "p"⟩, ⟨3, 2, "b", "q"⟩] "k" "i" 4
      (by decide) (by decide) (by decide)).1,
   (upload_policy_error_response [1, 2, 3] [⟨1, 0, "a", "p"⟩, ⟨3, 2, "b", "q"⟩] "k" "i" 4
      (by decide) (by decide) (by decide)).2.2.2⟩

/-- C3: on an upload completion without a policy-level error the reply code is
200 and the body is the XML document made of the fixed post header, one
complete element per delivered per-group result carrying that entry's own
addr, path, group and status, and a written element counting exactly the
entries whose status is 0. -/
theorem upload_success_xml (allGroups : List Int) (results : List WriteResultEntry)
    (keyRemote idStr : String) (contentSize : Nat) :
    req_upload_on_finished allGroups results false keyRemote idStr contentSize =
      ⟨200,
        some (uploadXmlHead keyRemote idStr results.length contentSize allGroups
          ++ (strConcat (results.map completeElem)
            ++ ("<written>" ++ (toString (results.countP (fun e => e.status == 0))
              ++ ("</written>\n" ++ "</post>"))))),
        none⟩ := by
  simp [req_upload_on_finished, uploadLoop_spec, String.append_assoc]

/-- C5: the delete completion maps the storage not-found error (code -ENOENT)
to 404, any other error to 500, and no error to 200 with no body. -/
theorem delete_finished_codes (c : Int) :
    req_delete_on_finished (some (-ENOENT)) = (404, none) ∧
    (c ≠ -ENOENT → req_delete_on_finished (some c) = (500, none)) ∧
    req_delete_on_finished none = (200, none) :=
  ⟨by simp [req_delete_on_finished], fun h => by simp [req_delete_on_finished, h], rfl⟩

theorem delete_finished_codes_witness :
    req_delete_on_finished (some (-ENOENT)) = (404, none) ∧
    req_delete_on_finished (some 13) = (500, none) ∧
    req_delete_on_finished none = (200, none) :=
  ⟨(delete_finished_codes 13).1, (delete_finished_codes 13).2.1 (by decide),
   (delete_finished_codes 13).2.2⟩

/-- C9: lookup_result::host reverse-resolves the raw node address through
getnameinfo, appends the colon and the signing port exactly when the
configured signing-port string is non-empty, and throws on resolution
failure: the error branch never produces a hostname, so there is no
fallback to the numeric address. -/
theorem lookup_host_resolution {α : Type} (getnameinfo : α → Option String)
    (addr : α) (signPort : String) :
    (getnameinfo addr = none →
      lookup_result_host getnameinfo addr signPort
        = Except.error "can not make dns lookup") ∧
    (∀ h, getnameinfo addr = some h →
      lookup_result_host getnameinfo addr signPort
        = Except.ok (h ++ (if signPort = "" then "" else ":" ++ signPort))) ∧
    (getnameinfo addr = none →
      ∀ s, lookup_result_host getnameinfo addr signPort ≠ Except.ok s) := by
  refine ⟨fun h => by simp [lookup_result_host, h], fun hname h => ?_, fun h s => by
    simp [lookup_result_host, h]⟩
  by_cases hsp : signPort = ""
  · simp [lookup_result_host, h, hsp]
  · simp [lookup_result_host, h, hsp, String.append_assoc]

theorem lookup_host_resolution_witness :
    (lookup_result_host (fun _ : Nat => none) 0 "99"
      = Except.error "can not make dns lookup") ∧
    (lookup_result_host (fun _ : Nat => some "node.example") 0 "99"
      = Except.ok ("node.example" ++ (if "99" = "" then "" else ":" ++ "99"))) ∧
    (lookup_result_host (fun _ : Nat => none) 0 "" ≠ Except.ok "127.0.0.1") :=
  ⟨(lookup_host_resolution (fun _ : Nat => none) 0 "99").1 rfl,
   (lookup_host_resolution (fun _ : Nat => some "node.example") 0 "99").2.1
     "node.example" rfl,
   (lookup_host_resolution (fun _ : Nat => none) 0 "").2.2 rfl "127.0.0.1"⟩

/-- C4: on a successful get completion the container is unpacked with the
embeds flag exactly when the request carried the embed or embed_timestamp
query flag OR the result's user flags hold the UF_EMBEDS bit; when the
unpacked container holds a timestamp whose rendering equals the
If-Modified-Since header the reply is 304 with no body and no header,
otherwise 200 with Last-Modified set when a timestamp is present and the
container payload as body. -/
theorem get_success_conditional (unpack : String → Bool → DataContainer)
    (fmt : Int → String) (file : String) (userFlags : Nat)
    (hasEmbedArg hasEmbedTimestampArg : Bool) (ims : Option String) :
    req_get_on_finished unpack fmt none file userFlags hasEmbedArg hasEmbedTimestampArg ims =
      (let dc := unpack file ((hasEmbedArg || hasEmbedTimestampArg)
        || decide ((userFlags &&& UF_EMBEDS) ≠ 0))
      match dc.timestamp with
      | some t =>
        if ims = some (fmt t) then ⟨304, none, none⟩
        else ⟨200, some dc.data, some (fmt t)⟩
      | none => ⟨200, some dc.data, none⟩) := by
  have hemb : (if (userFlags &&& UF_EMBEDS) ≠ 0 then true
      else (hasEmbedArg || hasEmbedTimestampArg))
      = ((hasEmbedArg || hasEmbedTimestampArg)
        || decide ((userFlags &&& UF_EMBEDS) ≠ 0)) := by
    by_cases h : (userFlags &&& UF_EMBEDS) ≠ 0 <;> simp [h]
  simp only [req_get_on_finished]
  rw [hemb]
  rcases htv : (unpack file ((hasEmbedArg || hasEmbedTimestampArg)
      || decide ((userFlags &&& UF_EMBEDS) ≠ 0))).timestamp with _ | t
  · simp [htv]
  · rcases ims with _ | s
    · simp [htv]
    · by_cases h : s = fmt t <;> simp [htv, h]

/-- C6: on a download-info completion without an aggregate error the reply is
rendered from the first entry in result order carrying no per-entry error
(503 when every entry errored), and the rendered document carries the fixed
region constant -1. -/
theorem download_info_first_good (entries : List DlLookupEntry) :
    ((∀ e ∈ entries, e.hasError = true) →
      req_download_info_on_finished none entries = (503, none)) ∧
    (∀ pre e post, entries = pre ++ e :: post → (∀ x ∈ pre, x.hasError = true) →
      e.hasError = false →
      req_download_info_on_finished none entries
        = (200, some (downloadInfoXml e.host e.path))) ∧
    (∀ h p, downloadInfoXml h p
      = "<?xml version=\"1.0\" encoding=\"utf-8\"?>" ++ "<download-info>" ++ "<host>"
        ++ h ++ "</host>" ++ "<path>" ++ p ++ "</path>" ++ "<region>" ++ "-1"
        ++ "</region>" ++ "</download-info>") := by
  refine ⟨fun hall => ?_, fun pre e post heq hpre he => ?_, fun h p => rfl⟩
  · have hnone : entries.find? (fun e => !e.hasError) = none := by
      rw [List.find?_eq_none]
      intro x hx
      simp [hall x hx]
    simp [req_download_info_on_finished, hnone]
  · subst heq
    have hfind : (pre ++ e :: post).find? (fun x => !x.hasError) = some e := by
      rw [List.find?_append]
      have hpre' : pre.find? (fun x => !x.hasError) = none := by
        rw [List.find?_eq_none]
        intro x hx
        simp [hpre x hx]
      rw [hpre', List.find?_cons_of_pos _ (by simp [he])]
      rfl
    simp [req_download_info_on_finished, hfind]

theorem download_info_first_good_witness :
    req_download_info_on_finished none [⟨true, "h0", "p0"⟩, ⟨false, "h1", "p1"⟩]
      = (200, some (downloadInfoXml "h1" "p1")) ∧
    req_download_info_on_finished none [⟨true, "h0", "p0"⟩] = (503, none) :=
  ⟨(download_info_first_good [⟨true, "h0", "p0"⟩, ⟨false, "h1", "p1"⟩]).2.1
      [⟨true, "h0", "p0"⟩] ⟨false, "h1", "p1"⟩ [] rfl (by decide) rfl,
   (download_info_first_good [⟨true, "h0", "p0"⟩]).1 (by decide)⟩

/-- C7: the cache reply body holds exactly the JSON fields whose flags occur
in the query, rendered in the fixed order group-weights, symmetric-groups,
bad-groups, cache-groups whatever order the query lists them in,
comma-separated, and reduces to the empty JSON object when no flag is
present; the body only depends on which of the four flags are present. -/
theorem cache_body_fixed_order (query : List String)
    (jsonGroupWeights jsonSymmetricGroups jsonBadGroups jsonCacheGroups : String) :
    (req_cache_on_request query jsonGroupWeights jsonSymmetricGroups jsonBadGroups
        jsonCacheGroups
      = (200, some ("\x7b" ++ "\n"
          ++ (if cacheFields query jsonGroupWeights jsonSymmetricGroups jsonBadGroups
                  jsonCacheGroups = [] then ""
              else sepJoin (cacheFields query jsonGroupWeights jsonSymmetricGroups
                  jsonBadGroups jsonCacheGroups) ++ "\n")
          ++ "\x7d" ++ "\n"))) ∧
    (∀ query', (∀ s, query.contains s = query'.contains s) →
      req_cache_on_request query jsonGroupWeights jsonSymmetricGroups jsonBadGroups
          jsonCacheGroups
        = req_cache_on_request query' jsonGroupWeights jsonSymmetricGroups jsonBadGroups
          jsonCacheGroups) := by
  constructor
  · by_cases h1 : "group-weights" ∈ query <;>
      by_cases h2 : "symmetric-groups" ∈ query <;>
      by_cases h3 : "bad-groups" ∈ query <;>
      by_cases h4 : "cache-groups" ∈ query <;>
      simp [req_cache_on_request, cacheFields, sepJoin, h1, h2, h3, h4,
        ← String.append_assoc]
  · intro query' hsame
    simp only [req_cache_on_request, hsame "group-weights", hsame "symmetric-groups",
      hsame "bad-groups", hsame "cache-groups"]

theorem cache_body_fixed_order_witness :
    req_cache_on_request ["bad-groups", "group-weights"] "GW" "SG" "BG" "CG"
      = (200, some ("\x7b" ++ "\n"
          ++ (if cacheFields ["bad-groups", "group-weights"] "GW" "SG" "BG" "CG" = []
              then ""
              else sepJoin (cacheFields ["bad-groups", "group-weights"] "GW" "SG" "BG"
                  "CG") ++ "\n")
          ++ "\x7d" ++ "\n")) ∧
    req_cache_on_request ["bad-groups", "group-weights"] "GW" "SG" "BG" "CG"
      = req_cache_on_request ["group-weights", "bad-groups", "group-weights"]
          "GW" "SG" "BG" "CG" :=
  ⟨(cache_body_fixed_order ["bad-groups", "group-weights"] "GW" "SG" "BG" "CG").1,
   (cache_body_fixed_order ["bad-groups", "group-weights"] "GW" "SG" "BG" "CG").2
     ["group-weights", "bad-groups", "group-weights"]
     (by
       intro s
       by_cases hb : s = "bad-groups" <;> by_cases hg : s = "group-weights" <;>
         simp [hb, hg])⟩

/-- C8 counterexample: generate_namespaces performs no positivity check on
groups-count, so a configuration with groups-count 0 loads successfully and
stores a namespace with groups_count = 0, refuting the claimed invariant
groups_count > 0 for every stored namespace. -/
theorem namespaces_zero_groups_count_loads :
    generate_namespaces (some [⟨"ns", some 0, some "all"⟩])
      = Except.ok [("ns", ⟨"ns", 0, ResultChecker.all, ""⟩)] ∧
    ¬ ((0 : Int) > 0) :=
  ⟨rfl, by decide⟩

/-- An entry with a missing groups-count or success-copies-num field, or a
success-copies-num outside all / quorum / any, makes the namespace loop fail
whatever the accumulator holds. -/
theorem generate_namespaces_loop_error (cfg : List NsConfigEntry) :
    ∀ (acc : List (String × NamespaceT)) (e : NsConfigEntry), e ∈ cfg →
    (e.groupsCount = none ∨ e.successCopiesNum = none ∨
      ∀ s, e.successCopiesNum = some s → s ≠ "all" ∧ s ≠ "quorum" ∧ s ≠ "any") →
    ∃ msg, generate_namespaces_loop cfg acc = Except.error msg := by
  induction cfg with
  | nil =>
    intro acc e he _
    exact absurd he (List.not_mem_nil e)
  | cons c rest ih =>
    intro acc e he hbad
    rcases hgc : c.groupsCount with _ | gc
    · exact ⟨"Missing 'groups-count' in '" ++ c.name ++ "' namespace",
        by simp [generate_namespaces_loop, hgc]⟩
    rcases hscn : c.successCopiesNum with _ | scn
    · exact ⟨"Missing 'success-copies-num' in '" ++ c.name ++ "' namespace",
        by simp [generate_namespaces_loop, hgc, hscn]⟩
    by_cases hall : scn = "all"
    · rcases List.mem_cons.mp he with rfl | he'
      · rcases hbad with h | h | h
        · simp [hgc] at h
        · simp [hscn] at h
        · exact absurd hall (h scn hscn).1
      · obtain ⟨m, hm⟩ :=
          ih (mapInsert acc c.name ⟨c.name, gc, ResultChecker.all, ""⟩) e he' hbad
        exact ⟨m, by simp [generate_namespaces_loop, hgc, hscn, hall, hm]⟩
    by_cases hq : scn = "quorum"
    · rcases List.mem_cons.mp he with rfl | he'
      · rcases hbad with h | h | h
        · simp [hgc] at h
        · simp [hscn] at h
        · exact absurd hq (h scn hscn).2.1
      · obtain ⟨m, hm⟩ :=
          ih (mapInsert acc c.name ⟨c.name, gc, ResultChecker.quorum, ""⟩) e he' hbad
        exact ⟨m, by simp [generate_namespaces_loop, hgc, hscn, hall, hq, hm]⟩
    by_cases hany : scn = "any"
    · rcases List.mem_cons.mp he with rfl | he'
      · rcases hbad with h | h | h
        · simp [hgc] at h
        · simp [hscn] at h
        · exact absurd hany (h scn hscn).2.2
      · obtain ⟨m, hm⟩ :=
          ih (mapInsert acc c.name ⟨c.name, gc, ResultChecker.atLeastOne, ""⟩) e he' hbad
        exact ⟨m, by simp [generate_namespaces_loop, hgc, hscn, hall, hq, hany, hm]⟩
    exact ⟨"Unknown type of success-copies-num '" ++ scn ++ "' in '"
        ++ c.name ++ "' namespace. Allowed types: any, quorum, all.",
      by simp [generate_namespaces_loop, hgc, hscn, hall, hq, hany]⟩

/-- Every namespace stored by a successful run of the loop either was already
in the accumulator or stems verbatim from a config entry: same name and the
configured groups-count, copied without any check. -/
theorem generate_namespaces_loop_ok (cfg : List NsConfigEntry) :
    ∀ (acc res : List (String × NamespaceT)) (n : String) (ns : NamespaceT),
    generate_namespaces_loop cfg acc = Except.ok res → (n, ns) ∈ res →
    (n, ns) ∈ acc ∨
      ∃ e ∈ cfg, e.name = n ∧ ns.name = n ∧ e.groupsCount = some ns.groupsCount := by
  induction cfg with
  | nil =>
    intro acc res n ns hok hmem
    simp only [generate_namespaces_loop, Except.ok.injEq] at hok
    subst hok
    exact Or.inl hmem
  | cons c rest ih =>
    intro acc res n ns hok hmem
    rcases hgc : c.groupsCount with _ | gc
    · simp [generate_namespaces_loop, hgc] at hok
    rcases hscn : c.successCopiesNum with _ | scn
    · simp [generate_namespaces_loop, hgc, hscn] at hok
    have hstep : ∀ ck : ResultChecker,
        generate_namespaces_loop rest (mapInsert acc c.name ⟨c.name, gc, ck, ""⟩)
          = Except.ok res →
        (n, ns) ∈ acc ∨
          ∃ e ∈ c :: rest, e.name = n ∧ ns.name = n ∧ e.groupsCount = some ns.groupsCount := by
      intro ck hok'
      rcases ih _ res n ns hok' hmem with hacc | ⟨e, he, h1, h2, h3⟩
      · by_cases hdup : acc.any (fun kv => kv.1 == c.name)
        · left
          simpa [mapInsert, hdup] using hacc
        · have hacc' : (n, ns) ∈ acc ++ [(c.name, ⟨c.name, gc, ck, ""⟩)] := by
            simpa [mapInsert, hdup] using hacc
          rcases List.mem_append.mp hacc' with h | h
          · exact Or.inl h
          · right
            simp only [List.mem_singleton, Prod.mk.injEq] at h
            obtain ⟨hn, hns⟩ := h
            refine ⟨c, List.mem_cons_self c rest, hn.symm, ?_, ?_⟩
            · rw [hns]
              exact hn.symm
            · rw [hns, hgc]
      · exact Or.inr ⟨e, List.mem_cons_of_mem c he, h1, h2, h3⟩
    by_cases hall : scn = "all"
    · refine hstep ResultChecker.all ?_
      simpa [generate_namespaces_loop, hgc, hscn, hall] using hok
    by_cases hq : scn = "quorum"
    · refine hstep ResultChecker.quorum ?_
      simpa [generate_namespaces_loop, hgc, hscn, hall, hq] using hok
    by_cases hany : scn = "any"
    · refine hstep ResultChecker.atLeastOne ?_
      simpa [generate_namespaces_loop, hgc, hscn, hall, hq, hany] using hok
    · simp [generate_namespaces_loop, hgc, hscn, hall, hq, hany] at hok

/-- C8 amended: loading fails with an error when any namespace entry misses
groups-count or success-copies-num or carries a success-copies-num outside
all / quorum / any; every namespace stored by a successful load carries the
configured groups-count verbatim — no groups_count > 0 invariant is
enforced. -/
theorem namespaces_load_validation (cfg : List NsConfigEntry) :
    (∀ e ∈ cfg, (e.groupsCount = none ∨ e.successCopiesNum = none ∨
        ∀ s, e.successCopiesNum = some s → s ≠ "all" ∧ s ≠ "quorum" ∧ s ≠ "any") →
      ∃ msg, generate_namespaces (some cfg) = Except.error msg) ∧
    (∀ res n ns, generate_namespaces (some cfg) = Except.ok res → (n, ns) ∈ res →
      ∃ e ∈ cfg, e.name = n ∧ ns.name = n ∧ e.groupsCount = some ns.groupsCount) := by
  constructor
  · intro e he hbad
    obtain ⟨m, hm⟩ := generate_namespaces_loop_error cfg [] e he hbad
    exact ⟨m, by simpa [generate_namespaces] using hm⟩
  · intro res n ns hok hmem
    have hok' : generate_namespaces_loop cfg [] = Except.ok res := by
      simpa [generate_namespaces] using hok
    rcases generate_namespaces_loop_ok cfg [] res n ns hok' hmem with h | h
    · exact absurd h (List.not_mem_nil _)
    · exact h

theorem namespaces_load_validation_witness :
    (∃ msg, generate_namespaces (some [⟨"bad", none, some "all"⟩]) = Except.error msg) ∧
    (∃ e ∈ [(⟨"ns", some 7, some "quorum"⟩ : NsConfigEntry)], e.name = "ns" ∧
      (⟨"ns", 7, ResultChecker.quorum, ""⟩ : NamespaceT).name = "ns" ∧
      e.groupsCount = some (⟨"ns", 7, ResultChecker.quorum, ""⟩ : NamespaceT).groupsCount) :=
  ⟨(namespaces_load_validation [⟨"bad", none, some "all"⟩]).1 ⟨"bad", none, some "all"⟩
      (List.mem_cons_self _ _) (Or.inl rfl),
   (namespaces_load_validation [⟨"ns", some 7, some "quorum"⟩]).2
      [("ns", ⟨"ns", 7, ResultChecker.quorum, ""⟩)] "ns" ⟨"ns", 7, ResultChecker.quorum, ""⟩
      rfl (List.mem_cons_self _ _)⟩

theorem strFind_eq_NPOS_of_not_mem (s : List Char) (c : Char) (h : c ∉ s) :
    strFind s c 0 = NPOS := by
  have hidx : s.findIdx? (fun x => x == c) = none := by
    rw [List.findIdx?_eq_none_iff]
    intro x hx
    simp only [beq_eq_false_iff_ne, ne_eq]
    rintro rfl
    exact h hx
  simp [strFind, hidx]

/-- C10: a URL without a '-' character resolves to the literal namespace name
"default"; and whenever the resolved name (default included) is absent from
the registry, get_file_info yields the default-constructed namespace with an
empty name, which both the upload dispatch and the delete dispatch answer
with a bare 400 before doing anything else. -/
theorem default_namespace_resolution (registry : List (String × NamespaceT))
    (env : DeleteEnv) (url : String) :
    ('-' ∉ url.data → (get_filename url).2 = "default") ∧
    (registry.find? (fun kv => kv.1 == (get_filename url).2) = none →
      (get_file_info registry url).2 = ⟨"", 0, ResultChecker.all, ""⟩ ∧
      req_upload_namespace_dispatch registry url = UploadDispatch.reply 400 ∧
      req_delete_on_request registry env url = [DeleteEvent.reply 400 none]) := by
  constructor
  · intro h
    simp only [get_filename]
    rw [strFind_eq_NPOS_of_not_mem url.data '-' h]
    simp
  · intro h
    have hfi : get_file_info registry url
        = ((get_filename url).1, ⟨"", 0, ResultChecker.all, ""⟩) := by
      simp only [get_file_info]
      rw [h]
    refine ⟨by rw [hfi], ?_, ?_⟩
    · simp [req_upload_namespace_dispatch, hfi]
    · simp [req_delete_on_request, hfi]

theorem default_namespace_resolution_witness :
    (get_filename "/delete/1/file").2 = "default" ∧
    ((get_file_info [] "/delete/1/file").2 = ⟨"", 0, ResultChecker.all, ""⟩ ∧
      req_upload_namespace_dispatch [] "/delete/1/file" = UploadDispatch.reply 400 ∧
      req_delete_on_request []
        ⟨fun _ _ _ => false, none, fun _ => none, fun _ _ => none, 0, 0⟩
        "/delete/1/file" = [DeleteEvent.reply 400 none]) :=
  ⟨(default_namespace_resolution []
      ⟨fun _ _ _ => false, none, fun _ => none, fun _ _ => none, 0, 0⟩
      "/delete/1/file").1 (by decide),
   (default_namespace_resolution []
      ⟨fun _ _ _ => false, none, fun _ => none, fun _ _ => none, 0, 0⟩
      "/delete/1/file").2 rfl⟩

end Mproxy
